import Mathlib

/-!
# DNS wire-format decoder: shallow embedding and verification

A shallow embedding of the DNS message decoder in `src/main.rs` (module
`dns`).  Byte buffers are modelled as `List Nat` (each element a byte
value `< 256`); machine arithmetic is carried out on `Nat` with explicit
masking where the source's `u8`/`u16` operations require it.  Fallible
Rust code returning `Result<_, Box<dyn Error>>` is modelled with
`Except DnsError _`, where `DnsError` gives each distinct error message
of the source a named constructor.
-/

namespace dns

/-- Error taxonomy of the decoder.  The source signals errors as boxed
strings; each constructor below corresponds to one distinct error site:
`MalformedHeader` to "Slice is not 12 bytes long", `InvalidOpcode c` to
"invalid opcode: {c}", `InvalidResponseCode c` to
"invalid response code: {c}", `InvalidQType k` to "invalid qtype: {k}",
`InvalidQClass c` to "invalid qclass: {c}", `InvalidLabelEncoding` to the
`FromUtf8Error` of `String::from_utf8`, and `UnexpectedEof` to the
`io::Error` of a failed `Cursor::read_exact`. -/
inductive DnsError where
  | MalformedHeader
  | InvalidOpcode (code : Nat)
  | InvalidResponseCode (code : Nat)
  | InvalidQType (kind : Nat)
  | InvalidQClass (cls : Nat)
  | InvalidLabelEncoding
  | UnexpectedEof
deriving DecidableEq, Repr

/- `mod flags` of the source: bit masks over the two flag bytes.
```
+--+--+--+--+--+--+--+--+--+--+--+--+--+--+--+--+
|QR|   Opcode  |AA|TC|RD|RA|   Z    |   RCODE   |
+--+--+--+--+--+--+--+--+--+--+--+--+--+--+--+--+
``` -/
namespace flags

def QR : Nat := 0b10000000
def OPCODE : Nat := 0b01111000
def AA : Nat := 0b00000100
def TC : Nat := 0b00000010
def RD : Nat := 0b00000001
def RA : Nat := 0b10000000
-- (the Z bits are reserved) 0b01110000
def RCODE : Nat := 0b00001111

end flags

inductive Opcode where
  | StandardQuery
  | InverseQuery
  | ServerStatusRequest
deriving DecidableEq, Repr

/-- `impl TryFrom<u8> for Opcode`. -/
def Opcode.tryFrom (code : Nat) : Except DnsError Opcode :=
  match code with
  | 0 => .ok .StandardQuery
  | 1 => .ok .InverseQuery
  | 2 => .ok .ServerStatusRequest
  | _ => .error (.InvalidOpcode code)

inductive ResponseCode where
  | NoError
  | FormatError
  | ServerFailure
  | NameError
  | NotImplemented
  | Refused
deriving DecidableEq, Repr

/-- `impl TryFrom<u8> for ResponseCode`. -/
def ResponseCode.tryFrom (code : Nat) : Except DnsError ResponseCode :=
  match code with
  | 0 => .ok .NoError
  | 1 => .ok .FormatError
  | 2 => .ok .ServerFailure
  | 3 => .ok .NameError
  | 4 => .ok .NotImplemented
  | 5 => .ok .Refused
  | _ => .error (.InvalidResponseCode code)

/-- `pub struct Header` (field order as in the source). -/
structure Header where
  id : Nat
  is_query : Bool -- If false, this is a response
  opcode : Opcode
  is_authoritative_answer : Bool
  truncated : Bool
  recursion_desired : Bool
  recursion_available : Bool
  response_code : ResponseCode
  questions : Nat
  answers : Nat
deriving DecidableEq, Repr

/-- `Header::parse`.  The source checks `buf.len() != 12`, then builds the
struct literal; the two fallible conversions are evaluated in field order
(opcode before response code), so an opcode error takes precedence.
`u8::from_be` is the identity on `u8` and is dropped.  The shift
`(buf[2] & 0b01111000) << 1` cannot overflow a byte (result `≤ 0xF0`), so
no reduction mod 256 is needed; likewise `(buf[3] & 0b00001111) << 4`.
Multi-byte reads `u16::from_be_bytes [hi, lo]` become `hi * 256 + lo`. -/
def Header.parse (buf : List Nat) : Except DnsError Header :=
  if buf.length ≠ 12 then .error .MalformedHeader
  else
    match Opcode.tryFrom ((buf.getD 2 0 &&& flags.OPCODE) <<< 1) with
    | .error e => .error e
    | .ok opcode =>
      match ResponseCode.tryFrom ((buf.getD 3 0 &&& flags.RCODE) <<< 4) with
      | .error e => .error e
      | .ok response_code =>
        .ok { id := buf.getD 0 0 * 256 + buf.getD 1 0
              is_query := (buf.getD 2 0 &&& flags.QR) > 0
              opcode := opcode
              is_authoritative_answer := (buf.getD 2 0 &&& flags.AA) > 0
              truncated := (buf.getD 2 0 &&& flags.TC) > 0
              recursion_desired := (buf.getD 2 0 &&& flags.RD) > 0
              recursion_available := false -- We currently don't support recursion
              response_code := response_code
              questions := buf.getD 4 0 * 256 + buf.getD 5 0
              answers := buf.getD 6 0 * 256 + buf.getD 7 0 }

inductive QType where
  | A
deriving DecidableEq, Repr

/-- `impl TryFrom<u16> for QType`. -/
def QType.tryFrom (kind : Nat) : Except DnsError QType :=
  match kind with
  | 1 => .ok .A
  | _ => .error (.InvalidQType kind)

inductive QClass where
  | Internet
deriving DecidableEq, Repr

/-- `impl TryFrom<u16> for QClass`. -/
def QClass.tryFrom (cls : Nat) : Except DnsError QClass :=
  match cls with
  | 1 => .ok .Internet
  | _ => .error (.InvalidQClass cls)

structure Question where
  name : List String
  qtype : QType
  qclass : QClass
deriving DecidableEq, Repr

structure Message where
  header : Header
  questions : List Question
deriving DecidableEq, Repr

/-- UTF-8 validation and decoding, the semantics of Rust's
`String::from_utf8`: exact UTF-8 (continuation bytes `0x80..0xBF`,
no overlong forms, no surrogates, code points `≤ 0x10FFFF`); `none` on
invalid input.  The range checks on the assembled code point are
equivalent to Rust's per-byte checks (`0xC2 ≤ b₀` rules out 2-byte
overlongs, `0x800 ≤ cp` 3-byte overlongs, surrogate exclusion the `0xED`
constraint, and `0x10000 ≤ cp ≤ 0x10FFFF` the `0xF0`/`0xF4`
constraints). -/
def utf8Decode : List Nat → Option (List Char)
  | [] => some []
  | b :: rest =>
    if b < 0x80 then
      (utf8Decode rest).map (fun cs => Char.ofNat b :: cs)
    else if 0xC2 ≤ b ∧ b ≤ 0xDF then
      match rest with
      | c1 :: rest2 =>
        if 0x80 ≤ c1 ∧ c1 ≤ 0xBF then
          (utf8Decode rest2).map
            (fun cs => Char.ofNat ((b - 0xC0) * 0x40 + (c1 - 0x80)) :: cs)
        else none
      | [] => none
    else if 0xE0 ≤ b ∧ b ≤ 0xEF then
      match rest with
      | c1 :: c2 :: rest3 =>
        let cp := (b - 0xE0) * 0x1000 + (c1 - 0x80) * 0x40 + (c2 - 0x80)
        if (0x80 ≤ c1 ∧ c1 ≤ 0xBF) ∧ (0x80 ≤ c2 ∧ c2 ≤ 0xBF) ∧
            0x800 ≤ cp ∧ ¬(0xD800 ≤ cp ∧ cp ≤ 0xDFFF) then
          (utf8Decode rest3).map (fun cs => Char.ofNat cp :: cs)
        else none
      | _ => none
    else if 0xF0 ≤ b ∧ b ≤ 0xF4 then
      match rest with
      | c1 :: c2 :: c3 :: rest4 =>
        let cp := (b - 0xF0) * 0x40000 + (c1 - 0x80) * 0x1000 +
          (c2 - 0x80) * 0x40 + (c3 - 0x80)
        if (0x80 ≤ c1 ∧ c1 ≤ 0xBF) ∧ (0x80 ≤ c2 ∧ c2 ≤ 0xBF) ∧
            (0x80 ≤ c3 ∧ c3 ≤ 0xBF) ∧ 0x10000 ≤ cp ∧ cp ≤ 0x10FFFF then
          (utf8Decode rest4).map (fun cs => Char.ofNat cp :: cs)
        else none
      | _ => none
    else none

/-- The name-reading loop of `Message::parse` (lines 179-187): read one
length byte (EOF if the cursor is exhausted, the failing
`cursor.read_exact(&mut name_len_buf)`); on zero stop; otherwise read
that many label bytes (EOF if fewer remain), validate them as UTF-8, and
continue.  The `Cursor` is modelled by the list of bytes still unread;
the result carries the labels read and the remaining bytes after the
terminating zero. -/
def parseLabels (l : List Nat) : Except DnsError (List String × List Nat) :=
  match l with
  | [] => .error .UnexpectedEof
  | len :: rest =>
    if len = 0 then .ok ([], rest)
    else if len ≤ rest.length then
      match utf8Decode (rest.take len) with
      | none => .error .InvalidLabelEncoding
      | some cs =>
        match parseLabels (rest.drop len) with
        | .error e => .error e
        | .ok (labels, r2) => .ok (String.mk cs :: labels, r2)
    else .error .UnexpectedEof
termination_by l.length
decreasing_by
  simp only [List.length_cons, List.length_drop]
  omega

/-- One iteration of the question loop of `Message::parse` (lines
178-200): name, then `qtype_buf` (2 bytes) and `qclass_buf` (2 bytes) are
read before either 16-bit value is validated, so exhausting the buffer on
either read yields `UnexpectedEof` even if the qtype bytes are invalid. -/
def parseQuestion (l : List Nat) : Except DnsError (Question × List Nat) :=
  match parseLabels l with
  | .error e => .error e
  | .ok (labels, r1) =>
    match r1 with
    | t1 :: t2 :: r2 =>
      match r2 with
      | c1 :: c2 :: r3 =>
        match QType.tryFrom (t1 * 256 + t2) with
        | .error e => .error e
        | .ok qtype =>
          match QClass.tryFrom (c1 * 256 + c2) with
          | .error e => .error e
          | .ok qclass => .ok (⟨labels, qtype, qclass⟩, r3)
      | _ => .error .UnexpectedEof
    | _ => .error .UnexpectedEof

/-- The `for _ in 0..header.questions` loop: decode `n` questions in
sequence, threading the unread bytes, aborting on the first error. -/
def parseQuestions (l : List Nat) : Nat → Except DnsError (List Question × List Nat)
  | 0 => .ok ([], l)
  | n + 1 =>
    match parseQuestion l with
    | .error e => .error e
    | .ok (q, r) =>
      match parseQuestions r n with
      | .error e => .error e
      | .ok (qs, r2) => .ok (q :: qs, r2)

/-- `Message::parse`: `cursor.read_exact(&mut header_buf)` on a 12-byte
array fails with an EOF `io::Error` when fewer than 12 bytes are
available; otherwise the first 12 bytes go to `Header::parse` and the
questions are decoded from the bytes after them. -/
def Message.parse (buf : List Nat) : Except DnsError Message :=
  if 12 ≤ buf.length then
    match Header.parse (buf.take 12) with
    | .error e => .error e
    | .ok header =>
      match parseQuestions (buf.drop 12) header.questions with
      | .error e => .error e
      | .ok (qs, _) => .ok ⟨header, qs⟩
  else .error .UnexpectedEof

end dns

/-!
## Helper lemmas
-/

namespace dns

lemma qtype_tryFrom_error (c : Nat) (e : DnsError) (h : QType.tryFrom c = .error e) :
    e = .InvalidQType c := by
  unfold QType.tryFrom at h; split at h <;> simp_all

lemma qclass_tryFrom_error (c : Nat) (e : DnsError) (h : QClass.tryFrom c = .error e) :
    e = .InvalidQClass c := by
  unfold QClass.tryFrom at h; split at h <;> simp_all

lemma opcode_tryFrom_error (c : Nat) (e : DnsError) (h : Opcode.tryFrom c = .error e) :
    e = .InvalidOpcode c := by
  unfold Opcode.tryFrom at h; split at h <;> simp_all

lemma rcode_tryFrom_error (c : Nat) (e : DnsError)
    (h : ResponseCode.tryFrom c = .error e) : e = .InvalidResponseCode c := by
  unfold ResponseCode.tryFrom at h; split at h <;> simp_all

lemma parseLabels_ne_malformed (l : List Nat) : parseLabels l ≠ .error .MalformedHeader := by
  induction l using parseLabels.induct <;> simp_all [parseLabels]
  rw [if_neg (by omega)]
  simp

lemma parseQuestion_ne_malformed (l : List Nat) : parseQuestion l ≠ .error .MalformedHeader := by
  unfold parseQuestion
  split
  case _ e heq => have := parseLabels_ne_malformed l; simp_all
  case _ labels r1 heq =>
    split <;> try simp
    split <;> try simp
    split
    case _ e' heq' => have := qtype_tryFrom_error _ _ heq'; subst this; simp
    case _ =>
      split
      case _ e'' heq'' => have := qclass_tryFrom_error _ _ heq''; subst this; simp
      case _ => simp

lemma parseQuestions_ne_malformed (n : Nat) (l : List Nat) :
    parseQuestions l n ≠ .error .MalformedHeader := by
  induction n generalizing l with
  | zero => simp [parseQuestions]
  | succ n ih =>
    unfold parseQuestions
    split
    case _ e heq => have := parseQuestion_ne_malformed l; simp_all
    case _ q r heq =>
      split
      case _ e heq2 => have := ih r; simp_all
      case _ => simp

lemma parseQuestions_length (n : Nat) (l : List Nat) (qs : List Question) (r : List Nat)
    (h : parseQuestions l n = .ok (qs, r)) : qs.length = n := by
  induction n generalizing l qs r with
  | zero => simp [parseQuestions] at h; simp [h.1]
  | succ n ih =>
    unfold parseQuestions at h
    split at h
    case _ => simp_all
    case _ q r' heq =>
      split at h
      case _ => simp_all
      case _ qs' r'' heq2 =>
        have hlen := ih _ _ _ heq2
        simp only [Except.ok.injEq, Prod.mk.injEq] at h
        obtain ⟨hq, hr⟩ := h
        subst hq
        simp [hlen]

lemma Header.parse_ne_malformed_of_len (buf : List Nat) (h : buf.length = 12) :
    Header.parse buf ≠ .error .MalformedHeader := by
  unfold Header.parse
  rw [if_neg (by omega)]
  split
  case _ e hOp => have := opcode_tryFrom_error _ _ hOp; subst this; simp
  case _ op hOp =>
    split
    case _ e hRc => have := rcode_tryFrom_error _ _ hRc; subst this; simp
    case _ => simp

/-!
## Claim theorems
-/

/-- C1: the claim says opcode nibble 0 decodes to `StandardQuery`, 1 to
`InverseQuery`, 2 to `ServerStatusRequest`, and 3-15 error.  The code's
`Opcode::try_from` does map 1 and 2 to the named variants, but
`Header::parse` feeds it `(buf[2] & 0b01111000) << 1` — a left shift
instead of the right shift by 3 that would put the nibble in range — so
nibble `n` arrives as `n * 16`: nibble 1 yields `InvalidOpcode 16` and
nibble 2 yields `InvalidOpcode 32` instead of the named variants; only
nibble 0 ever decodes.  This theorem evaluates the code at the failing
inputs. -/
theorem opcode_shift_bug :
    Opcode.tryFrom 1 = .ok .InverseQuery ∧
    Opcode.tryFrom 2 = .ok .ServerStatusRequest ∧
    Header.parse [0, 0, 0x08, 0, 0, 0, 0, 0, 0, 0, 0, 0] = .error (.InvalidOpcode 16) ∧
    Header.parse [0, 0, 0x10, 0, 0, 0, 0, 0, 0, 0, 0, 0] = .error (.InvalidOpcode 32) ∧
    Header.parse [0, 0, 0, 0, 0, 0, 0, 0, 0, 0, 0, 0] =
      .ok ⟨0, false, .StandardQuery, false, false, false, false, .NoError, 0, 0⟩ :=
  ⟨rfl, rfl, rfl, rfl, rfl⟩

/-- C2: the claim says response-code nibbles 0-5 decode to the six named
variants and 6-15 error.  `ResponseCode::try_from` does map 1-5 to the
named variants, but `Header::parse` feeds it `(buf[3] & 0b00001111) << 4`,
so nibble `n` arrives as `n * 16`: nibble 1 (low nibble of byte 3 = 0x01)
yields `InvalidResponseCode 16` instead of `FormatError`, and nibble 5
yields `InvalidResponseCode 80` instead of `Refused`; only nibble 0 ever
decodes.  This theorem evaluates the code at the failing inputs. -/
theorem rcode_shift_bug :
    ResponseCode.tryFrom 1 = .ok .FormatError ∧
    ResponseCode.tryFrom 5 = .ok .Refused ∧
    Header.parse [0, 0, 0, 0x01, 0, 0, 0, 0, 0, 0, 0, 0] = .error (.InvalidResponseCode 16) ∧
    Header.parse [0, 0, 0, 0x05, 0, 0, 0, 0, 0, 0, 0, 0] = .error (.InvalidResponseCode 80) ∧
    Header.parse [0, 0, 0, 0, 0, 0, 0, 0, 0, 0, 0, 0] =
      .ok ⟨0, false, .StandardQuery, false, false, false, false, .NoError, 0, 0⟩ :=
  ⟨rfl, rfl, rfl, rfl, rfl⟩

/-- C3: the claim says `is_query` is true exactly when the QR bit (bit 7
of byte 2) is clear.  The code computes `is_query = (buf[2] & 0x80) > 0`,
which is true exactly when the QR bit is SET — the opposite polarity,
contradicting the field's own comment ("If false, this is a response")
since RFC 1035 defines QR set = response.  Evaluated at byte 2 = 0x80
(a response) the decoded `is_query` is `true`, and at byte 2 = 0x00
(a query) it is `false`. -/
theorem is_query_polarity_bug :
    Header.parse [0, 0, 0x80, 0, 0, 0, 0, 0, 0, 0, 0, 0] =
      .ok ⟨0, true, .StandardQuery, false, false, false, false, .NoError, 0, 0⟩ ∧
    Header.parse [0, 0, 0, 0, 0, 0, 0, 0, 0, 0, 0, 0] =
      .ok ⟨0, false, .StandardQuery, false, false, false, false, .NoError, 0, 0⟩ :=
  ⟨rfl, rfl⟩

/-- C4 counterexample: a 12-byte buffer with all three reserved (Z) bits
of byte 3 set (byte 3 = 0b01110000) decodes successfully — the claim
that it yields a `ReservedBitSet` decode error is false; the code never
validates the Z bits and has no such error. -/
theorem reserved_bits_set_accepted :
    Header.parse [0, 0, 0, 0b01110000, 0, 0, 0, 0, 0, 0, 0, 0] =
      .ok ⟨0, false, .StandardQuery, false, false, false, false, .NoError, 0, 0⟩ :=
  rfl

/-- C4 amended: the header decoder performs no reserved-bit validation;
the Z bits of byte 3 are ignored entirely: any 12-byte buffer decodes to
exactly the same result as the same buffer with its Z bits
(mask 0b01110000 of byte 3) cleared, and no `ReservedBitSet`-style error
is ever signalled. -/
theorem reserved_bits_ignored (b0 b1 b2 b3 b4 b5 b6 b7 b8 b9 b10 b11 : Nat) :
    Header.parse [b0, b1, b2, b3 &&& 0b10001111, b4, b5, b6, b7, b8, b9, b10, b11] =
      Header.parse [b0, b1, b2, b3, b4, b5, b6, b7, b8, b9, b10, b11] := by
  have h1 : ((0b10001111 : Nat) &&& 0b00001111) = 0b00001111 := rfl
  have hnib : (b3 &&& 0b10001111) &&& flags.RCODE = b3 &&& flags.RCODE := by
    show (b3 &&& 0b10001111) &&& 0b00001111 = b3 &&& 0b00001111
    rw [Nat.and_assoc, h1]
  simp [Header.parse, hnib]

/-- C5 counterexample: a 12-byte buffer whose RA flag bit (high bit of
byte 3 in the RFC 1035 layout) is set decodes successfully with
`recursion_available = false` — the claim that the field equals the wire
bit is false. -/
theorem ra_bit_set_decodes_false :
    Header.parse [0, 0, 0, 0x80, 0, 0, 0, 0, 0, 0, 0, 0] =
      .ok ⟨0, false, .StandardQuery, false, false, false, false, .NoError, 0, 0⟩ :=
  rfl

/-- C5 amended: `recursion_available` is hardcoded: every successfully
decoded header has `recursion_available = false`, whatever the wire RA
bit was (the source comments "We currently don't support recursion"). -/
theorem ra_always_false (buf : List Nat) (h : Header) (hp : Header.parse buf = .ok h) :
    h.recursion_available = false := by
  unfold Header.parse at hp
  split at hp
  · simp at hp
  · split at hp
    · simp at hp
    · split at hp
      · simp at hp
      · simp only [Except.ok.injEq] at hp
        subst hp
        rfl

/-- C5 witness: `ra_always_false` applied to the concrete buffer with the
RA wire bit set. -/
theorem ra_always_false_witness :
    Header.recursion_available
      ⟨0, false, .StandardQuery, false, false, false, false, .NoError, 0, 0⟩ = false :=
  ra_always_false [0, 0, 0, 0x80, 0, 0, 0, 0, 0, 0, 0, 0] _ rfl

/-- C6: every byte buffer whose length is not exactly 12 is rejected by
the header decoder with `MalformedHeader` ("Slice is not 12 bytes long").
The embedding is a pure function of the given list, so the decoder
consults nothing beyond the slice it is handed. -/
theorem header_parse_wrong_length (buf : List Nat) (h : buf.length ≠ 12) :
    Header.parse buf = .error .MalformedHeader := by
  simp [Header.parse, h]

/-- C6 witness: `header_parse_wrong_length` at the empty buffer. -/
theorem header_parse_wrong_length_witness :
    Header.parse [] = .error .MalformedHeader :=
  header_parse_wrong_length [] (by simp)

/-- C7: the wire bytes `0x07 "fiwippi" 0x03 "net" 0x00`, qtype
`0x00 0x01`, qclass `0x00 0x01` decode to the question with name
`["fiwippi", "net"]` (ordered labels, no trailing empty element), qtype
`A` and qclass `Internet`, consuming the entire input. -/
theorem question_decode_fiwippi :
    parseQuestion [0x07, 102, 105, 119, 105, 112, 112, 105,
        0x03, 110, 101, 116, 0x00, 0x00, 0x01, 0x00, 0x01] =
      .ok (⟨["fiwippi", "net"], .A, .Internet⟩, []) := by
  have h1 : utf8Decode [102, 105, 119, 105, 112, 112, 105] = some "fiwippi".data := rfl
  have h2 : utf8Decode [110, 101, 116] = some "net".data := rfl
  simp [parseQuestion, parseLabels, h1, h2, QType.tryFrom, QClass.tryFrom]

/-- C8: (i) every successfully decoded message carries exactly as many
questions as its header declared; (ii) a declared count of 0 decodes to
an empty question sequence without error, whatever trailing bytes remain
unread; (iii) a concrete QDCOUNT = 2 message decodes to exactly its two
questions in buffer order ("aa" before "bb"). -/
theorem message_question_count :
    (∀ (buf : List Nat) (m : Message), Message.parse buf = .ok m →
      m.questions.length = m.header.questions) ∧
    (∀ (buf : List Nat) (h : Header), 12 ≤ buf.length →
      Header.parse (buf.take 12) = .ok h → h.questions = 0 →
      Message.parse buf = .ok ⟨h, []⟩) ∧
    Message.parse [0, 0, 0, 0, 0, 2, 0, 0, 0, 0, 0, 0,
        2, 97, 97, 0, 0, 1, 0, 1, 2, 98, 98, 0, 0, 1, 0, 1] =
      .ok ⟨⟨0, false, .StandardQuery, false, false, false, false, .NoError, 2, 0⟩,
        [⟨["aa"], .A, .Internet⟩, ⟨["bb"], .A, .Internet⟩]⟩ := by
  refine ⟨?_, ?_, ?_⟩
  · intro buf m hp
    unfold Message.parse at hp
    split at hp
    · split at hp
      · simp at hp
      case _ header hH =>
        split at hp
        · simp at hp
        case _ qs r hQ =>
          simp only [Except.ok.injEq] at hp
          subst hp
          exact parseQuestions_length _ _ _ _ hQ
    · simp at hp
  · intro buf h hlen hH hq0
    simp [Message.parse, hlen, hH, hq0, parseQuestions]
  · have ha : utf8Decode [97, 97] = some "aa".data := rfl
    have hb : utf8Decode [98, 98] = some "bb".data := rfl
    simp [Message.parse, Header.parse, parseQuestions, parseQuestion, parseLabels,
      ha, hb, QType.tryFrom, QClass.tryFrom, Opcode.tryFrom, ResponseCode.tryFrom]

/-- C8 witness: `message_question_count` applied to a 15-byte buffer
whose header declares QDCOUNT = 0: the three trailing bytes are left
unread and the question sequence is empty. -/
theorem message_question_count_witness :
    Message.parse [0, 0, 0, 0, 0, 0, 0, 0, 0, 0, 0, 0, 9, 9, 9] =
      .ok ⟨⟨0, false, .StandardQuery, false, false, false, false, .NoError, 0, 0⟩, []⟩ :=
  message_question_count.2.1 _ _ (by decide) rfl rfl

/-- C9: running out of bytes during question decoding yields
`UnexpectedEof`: (i) exhausting the buffer before a length byte; (ii)
a length byte promising more label bytes than remain; (iii) fewer than
the 4 bytes needed for qtype and qclass after the name (the reads happen
before either value is validated); (iv) any error of the question
decoder is the result of `Message.parse` itself — the `Except` result is
either a whole `Message` or an error, never a partial message. -/
theorem question_eof_errors :
    parseLabels ([] : List Nat) = .error .UnexpectedEof ∧
    (∀ (len : Nat) (rest : List Nat), len ≠ 0 → rest.length < len →
      parseLabels (len :: rest) = .error .UnexpectedEof) ∧
    (∀ (l : List Nat) (ls : List String) (r1 : List Nat),
      parseLabels l = .ok (ls, r1) → r1.length < 4 →
      parseQuestion l = .error .UnexpectedEof) ∧
    (∀ (buf : List Nat) (h : Header) (e : DnsError), 12 ≤ buf.length →
      Header.parse (buf.take 12) = .ok h →
      parseQuestions (buf.drop 12) h.questions = .error e →
      Message.parse buf = .error e) := by
  refine ⟨by simp [parseLabels], ?_, ?_, ?_⟩
  · intro len rest h0 hlt
    simp only [parseLabels]
    rw [if_neg h0, if_neg (by omega)]
  · intro l ls r1 hL hlt
    unfold parseQuestion
    rw [hL]
    rcases r1 with _ | ⟨a, _ | ⟨b, _ | ⟨c, _ | ⟨d, r⟩⟩⟩⟩
    · rfl
    · rfl
    · rfl
    · rfl
    · simp only [List.length_cons] at hlt
      omega
  · intro buf h e hlen hH hQ
    simp [Message.parse, hlen, hH, hQ]

/-- C9 witness: `question_eof_errors` applied to a buffer truncated
mid-label, one truncated before the qclass bytes, and a message whose
header promises one question but whose body is empty. -/
theorem question_eof_errors_witness :
    parseLabels [5, 1, 2] = .error .UnexpectedEof ∧
    parseQuestion [3, 97, 98, 99, 0, 0, 1] = .error .UnexpectedEof ∧
    Message.parse [0, 0, 0, 0, 0, 1, 0, 0, 0, 0, 0, 0] = .error .UnexpectedEof := by
  refine ⟨question_eof_errors.2.1 5 [1, 2] (by decide) (by decide),
    question_eof_errors.2.2.1 _ ["abc"] [0, 1] ?_ (by decide),
    question_eof_errors.2.2.2 _
      ⟨0, false, .StandardQuery, false, false, false, false, .NoError, 1, 0⟩ _
      (by decide) rfl ?_⟩
  · have h1 : utf8Decode [97, 98, 99] = some "abc".data := rfl
    simp [parseLabels, h1]
  · simp [parseQuestions, parseQuestion, parseLabels]

/-- C10: `Message.parse` hands the header decoder exactly the first 12
bytes, so (i) a buffer shorter than 12 bytes fails with the EOF error of
the header read (`cursor.read_exact`), not with `MalformedHeader`; and
(ii) the wrong-length branch of `Header.parse` is unreachable through
`Message.parse`: no input whatsoever makes `Message.parse` return
`MalformedHeader`. -/
theorem message_parse_short_buffer (buf : List Nat) :
    (buf.length < 12 → Message.parse buf = .error .UnexpectedEof) ∧
    Message.parse buf ≠ .error .MalformedHeader := by
  constructor
  · intro hlt
    unfold Message.parse
    rw [if_neg (by omega)]
  · by_cases hlen : 12 ≤ buf.length
    · unfold Message.parse
      rw [if_pos hlen]
      split
      case _ e hH =>
        intro hc
        injection hc with hc'
        subst hc'
        exact absurd hH (Header.parse_ne_malformed_of_len _ (by simp; omega))
      case _ header hH =>
        split
        case _ e hQ =>
          intro hc
          injection hc with hc'
          subst hc'
          exact absurd hQ (parseQuestions_ne_malformed _ _)
        case _ => simp
    · unfold Message.parse
      rw [if_neg hlen]
      simp

/-- C10 witness: `message_parse_short_buffer` at a 3-byte buffer and at
the empty buffer. -/
theorem message_parse_short_buffer_witness :
    Message.parse [1, 2, 3] = .error .UnexpectedEof ∧
    Message.parse [] ≠ .error .MalformedHeader :=
  ⟨(message_parse_short_buffer [1, 2, 3]).1 (by decide),
   (message_parse_short_buffer []).2⟩

end dns
